import Mathlib

/-!
Verification of the UEM placement-practice platform against its
natural-language specification.

Python strings are embedded as `List Char`; machine floats that hold exact
decimal/rational values (scores, percentages, accuracy rates) are embedded
as `ℚ`; SQL tables are embedded as Lean lists kept in row-insertion order
(the order an `ORDER BY`-free query such as `.first()` enumerates rows in);
fallible code returns `Except`/`Option`; calls to external HTTP services
are embedded as oracles (`Nat → outcome`) giving the outcome of each
successive request.
-/

namespace UEM

/-! ## Python string primitives over `List Char` -/

/-- Run-of-whitespace splitter: `splitWsAux s acc` processes `s` with the
current (reversed) partial word `acc`.  Mirrors Python `str.split()` with no
argument: runs of whitespace separate words and produce no empty tokens. -/
def splitWsAux : List Char → List Char → List (List Char)
  | [], acc => if acc = [] then [] else [acc.reverse]
  | c :: cs, acc =>
    if c.isWhitespace then
      if acc = [] then splitWsAux cs [] else acc.reverse :: splitWsAux cs []
    else
      splitWsAux cs (c :: acc)

/-- Python `s.split()` (split on whitespace runs, dropping empty tokens). -/
def pySplit (s : List Char) : List (List Char) := splitWsAux s []

/-- Python `s.strip()`: remove leading and trailing whitespace. -/
def pyStrip (s : List Char) : List Char :=
  ((s.dropWhile Char.isWhitespace).reverse.dropWhile Char.isWhitespace).reverse

/-- Python `s.upper()` (ASCII-faithful). -/
def pyUpper (s : List Char) : List Char := s.map Char.toUpper

/-- Python `s.lower()` (ASCII-faithful). -/
def pyLower (s : List Char) : List Char := s.map Char.toLower

/-- Contiguous-substring test (`pat` occurs inside `s`). -/
def containsSub (pat : List Char) : List Char → Bool
  | [] => pat.isEmpty
  | c :: rest => pat.isPrefixOf (c :: rest) || containsSub pat rest

/-- SQL `a ILIKE '%pat%'`: case-insensitive substring containment. -/
def containsCI (pat s : List Char) : Bool := containsSub (pyLower pat) (pyLower s)

/-! ## `AnalyticsService._anonymize_name` (src/analytics_service.py:563) -/

/-- `AnalyticsService._anonymize_name`: `None`/empty/whitespace-only →
`"Anonymous"`; one word → that word; several words → first word, a space,
the first letter of the last word, and a period.  The `take 1` renders
Python's `name_parts[-1][0]` (a one-character string in the f-string);
tokens produced by `split()` are provably nonempty, so the indexing is
total in the source as well. -/
def anonymizeName : Option (List Char) → List Char
  | none => "Anonymous".data
  | some fullName =>
    if fullName = [] ∨ pyStrip fullName = [] then "Anonymous".data
    else
      let nameParts := pySplit (pyStrip fullName)
      if nameParts.length = 1 then nameParts.headD []
      else if 2 ≤ nameParts.length then
        nameParts.headD [] ++ ' ' :: ((nameParts.getLastD []).take 1 ++ ['.'])
      else fullName

/-! ## Data model (src/models.py)

`User`, `Test`, `TestAttempt` rows as used by the analytics service.
`score` is a `Float` column holding the correct-answer count, embedded as
`ℚ`; timestamps are embedded as integers (seconds). -/

structure UserRow where
  id : Nat
  name : Option (List Char)
  year : Option Nat
  branch : Option (List Char)
deriving DecidableEq

structure TestRow where
  id : Nat
  company : List Char
  year : Nat
  createdAt : Int
deriving DecidableEq

structure TestAttemptRow where
  userId : Nat
  testId : Nat
  score : ℚ
  totalQuestions : Nat
  timeTaken : Nat
deriving DecidableEq

structure AnalyticsDB where
  users : List UserRow
  tests : List TestRow
  attempts : List TestAttemptRow
deriving DecidableEq

/-! ## `AnalyticsService.get_leaderboard` (src/analytics_service.py:452) -/

/-- The three optional filters.  In the source an empty-string company or a
zero year is falsy and behaves as no filter; absent filters are `none`. -/
structure LbFilters where
  company : Option (List Char)
  year : Option Nat
  branch : Option (List Char)
deriving DecidableEq

def noFilters : LbFilters := ⟨none, none, none⟩

/-- Whether an attempt row survives the joins/filters for user `u`:
it must belong to `u`, and under a company filter the inner join
`TestAttempt.test_id == Test.id` with `Test.company == company_filter`
must succeed. -/
def attemptInFilter (db : AnalyticsDB) (f : LbFilters) (u : UserRow)
    (a : TestAttemptRow) : Bool :=
  a.userId == u.id &&
    (match f.company with
     | none => true
     | some c => db.tests.any fun t => t.id == a.testId && t.company == c)

/-- The `User.year == year_filter` / `User.branch == branch_filter` filters. -/
def userInFilter (f : LbFilters) (u : UserRow) : Bool :=
  (match f.year with
   | none => true
   | some y => u.year == some y) &&
  (match f.branch with
   | none => true
   | some b => u.branch == some b)

/-- The attempt rows grouped under user `u` after all filters. -/
def filteredAttempts (db : AnalyticsDB) (f : LbFilters) (u : UserRow) :
    List TestAttemptRow :=
  db.attempts.filter (attemptInFilter db f u)

/-- `func.count(TestAttempt.id)` for the user's group. -/
def lbTotalTests (db : AnalyticsDB) (f : LbFilters) (u : UserRow) : Nat :=
  (filteredAttempts db f u).length

/-- `func.avg(TestAttempt.score / TestAttempt.total_questions * 100)`:
the mean over the user's filtered attempts of the per-attempt percentage. -/
def lbAvgScore (db : AnalyticsDB) (f : LbFilters) (u : UserRow) : ℚ :=
  (((filteredAttempts db f u).map
      fun a => a.score / (a.totalQuestions : ℚ) * 100).sum) /
    ((filteredAttempts db f u).length : ℚ)

/-- `func.sum(TestAttempt.time_taken)` for the user's group. -/
def lbTotalTime (db : AnalyticsDB) (f : LbFilters) (u : UserRow) : Nat :=
  ((filteredAttempts db f u).map TestAttemptRow.timeTaken).sum

/-- The `HAVING count >= 3` gate together with the row-level filters. -/
def lbEligible (db : AnalyticsDB) (f : LbFilters) (u : UserRow) : Bool :=
  userInFilter f u && 3 ≤ lbTotalTests db f u

/-- The `ORDER BY desc(avg_score), desc(total_tests), asc(total_time)` key,
encoded lexicographically (negations turn the descending components into an
ascending lexicographic comparison). -/
def lbKey (db : AnalyticsDB) (f : LbFilters) (u : UserRow) :
    Lex (ℚ × Lex (ℤ × ℕ)) :=
  toLex (-(lbAvgScore db f u),
    toLex (-((lbTotalTests db f u : ℤ)), lbTotalTime db f u))

/-- Comparison relation the leaderboard is sorted by. -/
def lbLe (db : AnalyticsDB) (f : LbFilters) (u v : UserRow) : Prop :=
  lbKey db f u ≤ lbKey db f v

instance (db : AnalyticsDB) (f : LbFilters) : DecidableRel (lbLe db f) :=
  fun u v => inferInstanceAs (Decidable (lbKey db f u ≤ lbKey db f v))

instance (db : AnalyticsDB) (f : LbFilters) : IsTotal UserRow (lbLe db f) :=
  ⟨fun _ _ => le_total _ _⟩

instance (db : AnalyticsDB) (f : LbFilters) : IsTrans UserRow (lbLe db f) :=
  ⟨fun _ _ _ => le_trans⟩

/-- The full ordered leaderboard (grouped, gated, ordered — the query before
pagination is applied). -/
def leaderboardRanking (db : AnalyticsDB) (f : LbFilters) : List UserRow :=
  List.insertionSort (lbLe db f) (db.users.filter fun u => lbEligible db f u)

/-- One leaderboard row as built in the result loop.  The display-only
roundings of the source (`round(avg_score, 2)`, seconds→hours) are omitted;
`averageScore`/`totalTime` hold the exact aggregates the rounding is applied
to. -/
structure LbEntry where
  rank : Nat
  userId : Nat
  name : List Char
  year : Option Nat
  branch : Option (List Char)
  totalTests : Nat
  averageScore : ℚ
  totalTime : Nat
deriving DecidableEq

structure LbPagination where
  currentPage : Nat
  totalPages : Nat
  totalCount : Nat
  hasNext : Bool
  hasPrev : Bool
  perPage : Nat
deriving DecidableEq

/-- The returned dictionary.  The success path echoes the filters; the
error path returns an empty filters dictionary, embedded as `none`. -/
structure LbResult where
  leaderboard : List LbEntry
  pagination : LbPagination
  filters : Option LbFilters
deriving DecidableEq

/-- The `try` body of `get_leaderboard`: query, paginate, build entries. -/
def getLeaderboardOk (db : AnalyticsDB) (limit page : Nat) (f : LbFilters) :
    LbResult :=
  let ranking := leaderboardRanking db f
  let totalCount := ranking.length
  let offset := (page - 1) * limit
  let pageRows := (ranking.drop offset).take limit
  let totalPages := (totalCount + limit - 1) / limit
  { leaderboard := pageRows.enum.map fun p =>
      { rank := offset + p.1 + 1
        userId := p.2.id
        name := anonymizeName p.2.name
        year := p.2.year
        branch := p.2.branch
        totalTests := lbTotalTests db f p.2
        averageScore := lbAvgScore db f p.2
        totalTime := lbTotalTime db f p.2 }
    pagination :=
      { currentPage := page
        totalPages := totalPages
        totalCount := totalCount
        hasNext := decide (page < totalPages)
        hasPrev := decide (1 < page)
        perPage := limit }
    filters := some f }

/-- `get_leaderboard` with its blanket `except`: `failed` records whether
any internal exception was raised, in which case the fixed fallback
dictionary is returned. -/
def getLeaderboard (failed : Bool) (db : AnalyticsDB) (limit page : Nat)
    (f : LbFilters) : LbResult :=
  if failed then
    { leaderboard := []
      pagination :=
        { currentPage := 1, totalPages := 0, totalCount := 0
          hasNext := false, hasPrev := false, perPage := limit }
      filters := none }
  else getLeaderboardOk db limit page f

/-- The ordering the claim asserts between consecutive leaderboard users:
non-increasing average score, ties broken by descending test count, then by
ascending total time. -/
def lbOrder (db : AnalyticsDB) (f : LbFilters) (u v : UserRow) : Prop :=
  lbAvgScore db f v < lbAvgScore db f u ∨
    (lbAvgScore db f u = lbAvgScore db f v ∧
      (lbTotalTests db f v < lbTotalTests db f u ∨
        (lbTotalTests db f u = lbTotalTests db f v ∧
          lbTotalTime db f u ≤ lbTotalTime db f v)))

/-- The ranking key the claim asserts, taken from the spec's words:
`sum(score) / sum(total_questions) × 100` pooled across the user's
attempts (to be compared with the source's `lbAvgScore`). -/
def specPooledAverage (db : AnalyticsDB) (f : LbFilters) (u : UserRow) : ℚ :=
  (((filteredAttempts db f u).map TestAttemptRow.score).sum /
      ((((filteredAttempts db f u).map TestAttemptRow.totalQuestions).sum : ℕ) : ℚ)) *
    100

/-- Two-user database on which the source ordering (mean of per-attempt
percentages) and the claimed pooled ordering disagree: user 1 has attempt
percentages 50, 50, 0 (mean 100/3, pooled 25/13), user 2 has 10, 10, 10
(mean 10, pooled 10). -/
def dbCounterC1 : AnalyticsDB :=
  { users := [⟨1, some "Alice Smith".data, none, none⟩,
              ⟨2, some "Bob Jones".data, none, none⟩]
    tests := []
    attempts := [⟨1, 0, 1, 2, 100⟩, ⟨1, 0, 1, 2, 100⟩, ⟨1, 0, 0, 100, 100⟩,
                 ⟨2, 0, 1, 10, 100⟩, ⟨2, 0, 1, 10, 100⟩, ⟨2, 0, 1, 10, 100⟩] }

/-- User 1 of `dbCounterC1`. -/
def uC1a : UserRow := ⟨1, some "Alice Smith".data, none, none⟩

/-- User 2 of `dbCounterC1`. -/
def uC1b : UserRow := ⟨2, some "Bob Jones".data, none, none⟩

/-! ## Test submission scoring (src/test_routes.py:384, `submit_test`) -/

/-- A `Question` row as read by the scoring loop.  `sectionName` embeds the
source's `section` column (`section` is a Lean keyword); `correct_answer`
is a nullable column (the loop guards `question.correct_answer is None`). -/
structure QuestionRow where
  id : Nat
  sectionName : List Char
  correct_answer : Option (List Char)
deriving DecidableEq

/-- The submitted `answers` JSON object: keys are `str(question.id)`
(embedded by the numeric id), values are the raw submissions
(`none` = JSON null). -/
abbrev SubmittedAnswers := List (Nat × Option (List Char))

/-- The normalized submission for question `q`:
`str(raw).strip().upper()` when the key is present and non-null, `''` for a
missing key or a null value. -/
def submittedNorm (answers : SubmittedAnswers) (q : QuestionRow) :
    List Char :=
  match answers.lookup q.id with
  | none => []
  | some none => []
  | some (some s) => pyUpper (pyStrip s)

/-- The normalized stored label:
`str(question.correct_answer).strip().upper()`, `''` when the column is
null. -/
def correctNorm (q : QuestionRow) : List Char :=
  match q.correct_answer with
  | none => []
  | some s => pyUpper (pyStrip s)

/-- `is_correct = user_answer == correct_answer and user_answer != ''`. -/
def gradeQuestion (answers : SubmittedAnswers) (q : QuestionRow) : Bool :=
  submittedNorm answers q == correctNorm q && submittedNorm answers q != []

/-- `correct_answers`, the score stored on the attempt: the number of
questions graded correct. -/
def scoreTest (questions : List QuestionRow) (answers : SubmittedAnswers) :
    Nat :=
  questions.countP (gradeQuestion answers)

/-! ## `TestAttempt.calculate_percentage` (src/models.py:153) -/

/-- `score / total_questions * 100` when `total_questions > 0`, else `0`. -/
def calculatePercentage (a : TestAttemptRow) : ℚ :=
  if 0 < a.totalQuestions then a.score / (a.totalQuestions : ℚ) * 100 else 0

/-! ## `ProgressMetrics` (src/models.py:176) and its update path -/

structure ProgressMetricsRow where
  accuracy_rate : ℚ
  total_attempts : Nat
deriving DecidableEq

/-- `ProgressMetrics.update_metrics` (src/models.py:190): reconstruct the
prior correct count from the stored rate and attempt count, add the new
section result, recompute the rate. -/
def updateMetrics (m : ProgressMetricsRow) (new_score total_questions : Nat) :
    ProgressMetricsRow :=
  let currentTotalCorrect : ℚ :=
    m.accuracy_rate / 100 * (m.total_attempts : ℚ) * (total_questions : ℚ)
  let newTotalCorrect : ℚ := currentTotalCorrect + (new_score : ℚ)
  let newTotalAttempts : Nat := m.total_attempts + 1
  { accuracy_rate :=
      newTotalCorrect / ((newTotalAttempts * total_questions : Nat) : ℚ) * 100
    total_attempts := newTotalAttempts }

/-- The per-section branch of `submit_test` (src/test_routes.py:461):
update the existing `ProgressMetrics` row, or create one with
`accuracy_rate = section_percentage` (`0` when the section has no
questions) and `total_attempts = 1`. -/
def recordSectionResult (existing : Option ProgressMetricsRow)
    (correct total : Nat) : ProgressMetricsRow :=
  match existing with
  | some m => updateMetrics m correct total
  | none =>
    { accuracy_rate := if 0 < total then (correct : ℚ) / (total : ℚ) * 100 else 0
      total_attempts := 1 }

/-! ## `GoogleSearchClient._retry_api_call` (src/google_search_client.py:160)

Each successive underlying call is given by a script `Nat → CallResult α`
(attempt index ↦ outcome); `time.sleep` is recorded as the list of slept
delays, in chronological order. -/

/-- Outcome of one wrapped call: success, a `requests.exceptions.Timeout`,
or any other raised exception (network-related or not — the source's second
handler is `except Exception`). -/
inductive CallResult (α : Type) where
  | ok (v : α)
  | timeoutExc (e : List Char)
  | otherExc (e : List Char)
deriving DecidableEq

/-- Whether the call raised. -/
def CallResult.isFail {α : Type} : CallResult α → Bool
  | .ok _ => false
  | .timeoutExc _ => true
  | .otherExc _ => true

/-- The exception message, when the call raised. -/
def excMsg {α : Type} : CallResult α → Option (List Char)
  | .ok _ => none
  | .timeoutExc e => some e
  | .otherExc e => some e

/-- The per-attempt backoff multiplier the source applies: 3 for a
`Timeout`, 2 for every other exception. -/
def backoffFactor {α : Type} : CallResult α → Nat
  | .timeoutExc _ => 3
  | _ => 2

/-- Result of a retry-loop run: `Except.error (maxRetries, last)` embeds the
`GoogleSearchAPIError` raised after exhaustion (it wraps the attempt budget
and the last exception), and `delays` lists the slept backoff delays. -/
structure RetryTrace (α : Type) where
  result : Except (Nat × Option (List Char)) α
  delays : List Nat

/-- Loop body of `_retry_api_call`: `remaining` attempts left (initially
`max_retries`, so the `remaining = 0` base only fires when the `for` range
is empty), `attempt` the current index, then the last exception seen and
the accumulated (reversed) delays. -/
def retryGo {α : Type} (script : Nat → CallResult α)
    (maxRetries retryDelay : Nat) :
    Nat → Nat → Option (List Char) → List Nat → RetryTrace α
  | 0, _, last, delays => ⟨.error (maxRetries, last), delays.reverse⟩
  | remaining + 1, attempt, _, delays =>
    match script attempt with
    | .ok v => ⟨.ok v, delays.reverse⟩
    | .timeoutExc e =>
      if attempt < maxRetries - 1 then
        retryGo script maxRetries retryDelay remaining (attempt + 1) (some e)
          (retryDelay * 3 ^ attempt :: delays)
      else ⟨.error (maxRetries, some e), delays.reverse⟩
    | .otherExc e =>
      if attempt < maxRetries - 1 then
        retryGo script maxRetries retryDelay remaining (attempt + 1) (some e)
          (retryDelay * 2 ^ attempt :: delays)
      else ⟨.error (maxRetries, some e), delays.reverse⟩

/-- `GoogleSearchClient._retry_api_call` (defaults: `max_retries = 3`,
`retry_delay = 2`). -/
def retryApiCall {α : Type} (script : Nat → CallResult α)
    (maxRetries retryDelay : Nat) : RetryTrace α :=
  retryGo script maxRetries retryDelay maxRetries 0 none []

/-- Script exhibiting a retried non-network error: attempt 0 raises a
`ValueError` (handled by the blanket `except Exception`), attempt 1
succeeds. -/
def scriptC7 : Nat → CallResult Nat
  | 0 => .otherExc "ValueError: not a network error".data
  | _ => .ok 42

/-- All-failing script for the exhaustion clause: a timeout, then two
generic errors. -/
def scriptC7b : Nat → CallResult Nat
  | 0 => .timeoutExc "t0".data
  | _ => .otherExc "e1".data

/-! ## `GeminiClient._validate_question_json` (src/gemini_client.py:212)

The parsed synthesis JSON is embedded structurally: presence of fields the
validator only checks for existence is a `Bool`; fields whose value is
inspected are `Option`s (`none` = key missing).  The source's
`isinstance(..., list)` guards coincide with typing here. -/

structure QJson where
  hasId : Bool
  hasQuestionText : Bool
  options : Option (List (List Char))
  correct_answer : Option (List Char)
  hasExplanation : Bool
  difficulty : Option (List Char)
  hasTopic : Bool
deriving DecidableEq

structure SJson where
  section_name : Option (List Char)
  hasTimeLimit : Bool
  questions : Option (List QJson)
deriving DecidableEq

structure TJson where
  hasCompany : Bool
  hasYear : Bool
  hasTotalQuestions : Bool
  sections : Option (List SJson)
deriving DecidableEq

/-- The `QuestionValidationError` cases, mirroring the messages raised. -/
inductive VErr where
  | missingTopField (f : List Char)
  | sectionsNotNonemptyList
  | missingSectionField (f : List Char)
  | sectionHasNoQuestions (name : Option (List Char))
  | missingQuestionField (idx : Nat) (f : List Char)
  | optionsNotFour (idx : Nat)
  | invalidCorrectAnswer (idx : Nat) (ans : List Char)
  | invalidDifficulty (idx : Nat) (d : List Char)
deriving DecidableEq

/-- The 1-based question number named in a question-level error message. -/
def VErr.questionIdx : VErr → Option Nat
  | .missingQuestionField i _ => some i
  | .optionsNotFour i => some i
  | .invalidCorrectAnswer i _ => some i
  | .invalidDifficulty i _ => some i
  | _ => none

/-- Validation of one question (loop index `i`, messages use `i+1`):
presence of the seven required fields in source order, then exactly 4
options, then `correct_answer ∈ {A,B,C,D}`, then
`difficulty ∈ {easy,medium,hard}`. -/
def validateQuestion (i : Nat) (q : QJson) : Except VErr Unit :=
  if !q.hasId then .error (.missingQuestionField (i + 1) "id".data)
  else if !q.hasQuestionText then
    .error (.missingQuestionField (i + 1) "question_text".data)
  else if q.options.isNone then
    .error (.missingQuestionField (i + 1) "options".data)
  else if q.correct_answer.isNone then
    .error (.missingQuestionField (i + 1) "correct_answer".data)
  else if !q.hasExplanation then
    .error (.missingQuestionField (i + 1) "explanation".data)
  else if q.difficulty.isNone then
    .error (.missingQuestionField (i + 1) "difficulty".data)
  else if !q.hasTopic then
    .error (.missingQuestionField (i + 1) "topic".data)
  else if (q.options.getD []).length ≠ 4 then .error (.optionsNotFour (i + 1))
  else if q.correct_answer.getD [] ∉
      ["A".data, "B".data, "C".data, "D".data] then
    .error (.invalidCorrectAnswer (i + 1) (q.correct_answer.getD []))
  else if q.difficulty.getD [] ∉
      ["easy".data, "medium".data, "hard".data] then
    .error (.invalidDifficulty (i + 1) (q.difficulty.getD []))
  else .ok ()

def validateQuestions : Nat → List QJson → Except VErr Unit
  | _, [] => .ok ()
  | i, q :: qs =>
    match validateQuestion i q with
    | .error e => .error e
    | .ok _ => validateQuestions (i + 1) qs

/-- Validation of one section: required fields in source order, then a
nonempty question list, then each question (`enumerate` restarts at 0 per
section). -/
def validateSection (s : SJson) : Except VErr Unit :=
  if s.section_name.isNone then
    .error (.missingSectionField "section_name".data)
  else if !s.hasTimeLimit then
    .error (.missingSectionField "time_limit_minutes".data)
  else if s.questions.isNone then
    .error (.missingSectionField "questions".data)
  else if (s.questions.getD []).length = 0 then
    .error (.sectionHasNoQuestions s.section_name)
  else validateQuestions 0 (s.questions.getD [])

def validateSections : List SJson → Except VErr Unit
  | [] => .ok ()
  | s :: ss =>
    match validateSection s with
    | .error e => .error e
    | .ok _ => validateSections ss

/-- `GeminiClient._validate_question_json`. -/
def validateQuestionJson (t : TJson) : Except VErr Unit :=
  if !t.hasCompany then .error (.missingTopField "company".data)
  else if !t.hasYear then .error (.missingTopField "year".data)
  else if !t.hasTotalQuestions then
    .error (.missingTopField "total_questions".data)
  else if t.sections.isNone then .error (.missingTopField "sections".data)
  else if (t.sections.getD []).length = 0 then .error .sectionsNotNonemptyList
  else validateSections (t.sections.getD [])

/-! ## `GeminiClient.generate_questions` (src/gemini_client.py:305)

The HTTP request, content extraction and JSON parse are collapsed into the
script outcome: `.ok payload` is a request whose response parsed into
`payload`, `.fail e` a request/extraction/parse failure.  The point the
embedding keeps precise is which stage sits inside the retry loop: only the
request (`_retry_api_call(self._make_generation_request, prompt)`);
validation runs after the loop. -/

inductive ReqOutcome where
  | fail (e : List Char)
  | ok (payload : TJson)
deriving DecidableEq

inductive GenFailure where
  | requestsExhausted (attempts : Nat) (last : Option (List Char))
  | validationFailed (e : VErr)
deriving DecidableEq

/-- Result of `generate_questions`: outcome, number of HTTP requests
issued, and the backoff delays slept (`retry_delay * 2^attempt`). -/
structure GenResult where
  outcome : Except GenFailure TJson
  requests : Nat
  delays : List Nat

/-- `GeminiClient._retry_api_call` (src/gemini_client.py:273): same loop as
the Research Client's but with factor-2 backoff for every exception; after
exhaustion it raises a `GeminiAPIError` naming `max_retries` and the last
exception. -/
def geminiRetry (script : Nat → ReqOutcome) (maxRetries retryDelay : Nat) :
    Nat → Nat → Option (List Char) → List Nat →
    (Except GenFailure TJson × Nat × List Nat)
  | 0, attempt, last, delays =>
    (.error (.requestsExhausted maxRetries last), attempt, delays.reverse)
  | remaining + 1, attempt, _, delays =>
    match script attempt with
    | .ok p => (.ok p, attempt + 1, delays.reverse)
    | .fail e =>
      if attempt < maxRetries - 1 then
        geminiRetry script maxRetries retryDelay remaining (attempt + 1)
          (some e) (retryDelay * 2 ^ attempt :: delays)
      else
        (.error (.requestsExhausted maxRetries (some e)), attempt + 1,
          delays.reverse)

/-- `GeminiClient.generate_questions` (defaults: `max_retries = 3`,
`retry_delay = 2`): retry the request, then validate; a
`QuestionValidationError` is caught by the outer blanket handler and
re-raised wrapped in a `GeminiAPIError` — it is not retried. -/
def generateQuestions (script : Nat → ReqOutcome)
    (maxRetries retryDelay : Nat) : GenResult :=
  match geminiRetry script maxRetries retryDelay maxRetries 0 none [] with
  | (.error f, n, ds) => ⟨.error f, n, ds⟩
  | (.ok payload, n, ds) =>
    match validateQuestionJson payload with
    | .error ve => ⟨.error (.validationFailed ve), n, ds⟩
    | .ok _ => ⟨.ok payload, n, ds⟩

/-- A structurally valid question payload. -/
def qGoodC6 : QJson :=
  ⟨true, true,
    some ["A) 1".data, "B) 2".data, "C) 3".data, "D) 4".data],
    some "A".data, true, some "medium".data, true⟩

/-- The same question with `correct_answer` missing. -/
def qBadC6 : QJson :=
  ⟨true, true,
    some ["A) 1".data, "B) 2".data, "C) 3".data, "D) 4".data],
    none, true, some "medium".data, true⟩

def tGoodC6 : TJson :=
  ⟨true, true, true,
    some [⟨some "Quantitative Aptitude".data, true, some [qGoodC6]⟩]⟩

def tBadC6 : TJson :=
  ⟨true, true, true,
    some [⟨some "Quantitative Aptitude".data, true, some [qBadC6]⟩]⟩

/-- Script whose first response fails validation and whose second would
pass it. -/
def scriptC6 : Nat → ReqOutcome
  | 0 => .ok tBadC6
  | _ => .ok tGoodC6

/-! ## `QuestionGenerationService` (src/question_generation_service.py)

The generation pipeline over a generation-side view of the database
(`Test` and `Question` tables plus the next autoincrement id).  The two
external clients are oracles: `single` is the payload a plain
`generate_questions` call would return, `chunkOracle i` the payload of the
i-th chunked request.  Only validation failures are modelled as errors
(API-error propagation is not needed by the claims). -/

/-- One question of a synthesis payload, with the fields
`_save_test_to_database` persists. -/
structure QPayload where
  question_text : List Char
  options : List (List Char)
  correct_answer : List Char
  explanation : List Char
  difficulty : List Char
deriving DecidableEq

/-- One section of a synthesis payload. -/
structure GenSection where
  section_name : List Char
  questions : List QPayload
deriving DecidableEq

/-- The `sections` list of a parsed synthesis payload. -/
abbrev GenPayload := List GenSection

/-- A persisted `Question` row (fields relevant to the claims). -/
structure QuestionRecord where
  testId : Nat
  sectionName : List Char
  question_text : List Char
deriving DecidableEq

/-- Generation-side database view. -/
structure GenDB where
  tests : List TestRow
  questions : List QuestionRecord
  nextTestId : Nat
deriving DecidableEq

/-- `self.cache_duration_hours = 24`, in seconds. -/
def cacheWindowSeconds : Int := 24 * 3600

/-- `_check_existing_test` (src/question_generation_service.py:44): take
the first test matching `company ILIKE '%c%'`, `year ==`,
`created_at >= now - 24h`; accept it only if it has at least one
question. -/
def checkExistingTest (db : GenDB) (now : Int) (company : List Char)
    (year : Nat) : Option TestRow :=
  match (db.tests.filter fun t =>
      containsCI company t.company && t.year == year &&
        decide (now - cacheWindowSeconds ≤ t.createdAt)).head? with
  | none => none
  | some t =>
    if 0 < (db.questions.filter fun q => q.testId == t.id).length then some t
    else none

/-- `_save_test_to_database` (src/question_generation_service.py:77):
insert a `Test` row created now and one `Question` row per payload
question. -/
def saveTestToDatabase (db : GenDB) (payload : GenPayload)
    (company : List Char) (year : Nat) (now : Int) : TestRow × GenDB :=
  let t : TestRow := ⟨db.nextTestId, company, year, now⟩
  let qs := payload.flatMap fun s => s.questions.map fun q =>
    (⟨t.id, s.section_name, q.question_text⟩ : QuestionRecord)
  (t, ⟨db.tests ++ [t], db.questions ++ qs, db.nextTestId + 1⟩)

/-- `_validate_generation_request`
(src/question_generation_service.py:142): nonempty company (after strip),
`1 ≤ num_questions ≤ 100`. -/
def validGenerationRequest (company : List Char) (n : Nat) : Bool :=
  !(company == []) && !(pyStrip company == []) && 1 ≤ n && n ≤ 100

/-- Merge step of the chunked generator: append a section's questions to
the entry of the same name, or add a new entry. -/
def addSection : List GenSection → GenSection → List GenSection
  | [], s => [s]
  | t :: ts, s =>
    if t.section_name = s.section_name then
      { t with questions := t.questions ++ s.questions } :: ts
    else t :: addSection ts s

/-- Merge the section lists of all chunks, deduplicating by name. -/
def mergeSections (chunks : List GenPayload) : GenPayload :=
  chunks.foldl (fun acc p => p.foldl addSection acc) []

/-- Modelled from the spec: `GeminiClient.generate_questions_chunked` is
called at src/question_generation_service.py:224 but is absent from the
repository sources.  Per the spec it issues multiple smaller synthesis
requests, each asking for a fixed sub-count (`questions_per_chunk`), and
merges their section/question lists, deduplicating sections by name.
Returns the merged payload and the list of requested sub-counts (one per
issued request). -/
def generateQuestionsChunked (oracle : Nat → GenPayload)
    (n chunkSize : Nat) : GenPayload × List Nat :=
  let numChunks := (n + chunkSize - 1) / chunkSize
  (mergeSections ((List.range numChunks).map oracle),
    (List.range numChunks).map fun _ => chunkSize)

/-- The synthesis dispatch of `generate_test_async`
(src/question_generation_service.py:282): chunked with
`questions_per_chunk = 8` for more than 15 questions, one single request
otherwise. -/
def synthesisStep (single : GenPayload) (chunkOracle : Nat → GenPayload)
    (n : Nat) : GenPayload × List Nat :=
  if 15 < n then generateQuestionsChunked chunkOracle n 8
  else (single, [n])

/-- Outcome of `generate_test_async` relevant to the claims: the returned
`test_id` and `from_cache` flag, the number of research calls made, and
the requested sizes of the synthesis requests issued. -/
structure GenTestResult where
  testId : Nat
  fromCache : Bool
  researchCalls : Nat
  synthesisRequests : List Nat
deriving DecidableEq

/-- `generate_test_async` (src/question_generation_service.py:230):
validate, consult the cache unless `force_regenerate`, otherwise research,
synthesize (chunked above 15) and persist. -/
def generateTestAsync (db : GenDB) (now : Int) (company : List Char)
    (n year : Nat) (forceRegenerate : Bool) (single : GenPayload)
    (chunkOracle : Nat → GenPayload) :
    Except (List Char) (GenTestResult × GenDB) :=
  if !validGenerationRequest company n then
    .error "QuestionGenerationError: invalid request".data
  else
    match
      if forceRegenerate then none else checkExistingTest db now company year
    with
    | some t => .ok (⟨t.id, true, 0, []⟩, db)
    | none =>
      let gen := synthesisStep single chunkOracle n
      let saved := saveTestToDatabase db gen.1 company year now
      .ok (⟨saved.1.id, false, 1, gen.2⟩, saved.2)

/-- Total number of questions in a payload. -/
def payloadQuestionCount (p : GenPayload) : Nat :=
  (p.map fun s => s.questions.length).sum

/-- Pre-existing state for the C2 counterexample: one cached test for
"TCS", year 2025, created at time 0 — with no questions. -/
def dbC2 : GenDB := ⟨[⟨1, "TCS".data, 2025, 0⟩], [], 2⟩

/-- A one-section, one-question synthesis payload. -/
def payloadC2 : GenPayload :=
  [⟨"Quantitative Aptitude".data,
    [⟨"q1".data, ["A) 1".data, "B) 2".data, "C) 3".data, "D) 4".data],
      "A".data, "because".data, "medium".data⟩]⟩]

/-- The database after the C2 counterexample's first call persisted its
test (id 2, one question). -/
def dbC2saved : GenDB :=
  ⟨[⟨1, "TCS".data, 2025, 0⟩, ⟨2, "TCS".data, 2025, 0⟩],
    [⟨2, "Quantitative Aptitude".data, "q1".data⟩], 3⟩

/-- The database after the C2 counterexample's second call regenerated
(test id 3, created at 3600). -/
def dbC2saved2 : GenDB :=
  ⟨[⟨1, "TCS".data, 2025, 0⟩, ⟨2, "TCS".data, 2025, 0⟩,
      ⟨3, "TCS".data, 2025, 3600⟩],
    [⟨2, "Quantitative Aptitude".data, "q1".data⟩,
      ⟨3, "Quantitative Aptitude".data, "q1".data⟩], 4⟩

end UEM

namespace UEM

/-! ### Lemmas about the word splitter -/

theorem splitWsAux_ne_nil (s : List Char) :
    ∀ acc, ∀ t ∈ splitWsAux s acc, t ≠ [] := by
  induction s with
  | nil =>
    intro acc t ht
    by_cases hacc : acc = []
    · simp [splitWsAux, hacc] at ht
    · simp [splitWsAux, hacc] at ht
      subst ht
      simpa using hacc
  | cons c cs ih =>
    intro acc t ht
    by_cases hws : c.isWhitespace
    · by_cases hacc : acc = []
      · simp [splitWsAux, hws, hacc] at ht
        exact ih [] t ht
      · simp [splitWsAux, hws, hacc] at ht
        rcases ht with h | h
        · subst h; simpa using hacc
        · exact ih [] t h
    · simp [splitWsAux, hws] at ht
      exact ih (c :: acc) t ht

theorem splitWsAux_no_ws (s : List Char) (hs : ∀ c ∈ s, ¬ c.isWhitespace) :
    ∀ acc, ¬ (s = [] ∧ acc = []) → splitWsAux s acc = [acc.reverse ++ s] := by
  induction s with
  | nil =>
    intro acc hne
    have hacc : acc ≠ [] := by
      intro h; exact hne ⟨rfl, h⟩
    simp [splitWsAux, hacc]
  | cons c cs ih =>
    intro acc _
    have hc : ¬ c.isWhitespace := hs c (by simp)
    have hcs : ∀ x ∈ cs, ¬ x.isWhitespace := fun x hx => hs x (by simp [hx])
    have := ih hcs (c :: acc) (by simp)
    simp only [splitWsAux, hc, if_false] at this ⊢
    rw [this]
    simp

theorem pySplit_single (s : List Char) (hne : s ≠ [])
    (hs : ∀ c ∈ s, ¬ c.isWhitespace) : pySplit s = [s] := by
  have := splitWsAux_no_ws s hs [] (by simp [hne])
  simpa [pySplit] using this

theorem pyStrip_no_ws (s : List Char) (hs : ∀ c ∈ s, ¬ c.isWhitespace) :
    pyStrip s = s := by
  have h1 : s.dropWhile Char.isWhitespace = s := by
    cases s with
    | nil => rfl
    | cons c cs =>
      have : ¬ c.isWhitespace = true := hs c (by simp)
      simp [List.dropWhile, this]
  have h2 : s.reverse.dropWhile Char.isWhitespace = s.reverse := by
    cases hr : s.reverse with
    | nil => rfl
    | cons c cs =>
      have hc : c ∈ s := by
        have : c ∈ s.reverse := by rw [hr]; simp
        simpa using this
      have : ¬ c.isWhitespace = true := hs c hc
      simp [List.dropWhile, this]
  simp [pyStrip, h1, h2]

end UEM

namespace UEM

/-! ### Claim C9: name redaction -/

/-- C9: `_anonymize_name` maps "John Doe" to "John D.", "John" to "John",
empty or absent names to "Anonymous", "John Michael Doe" to "John D.";
in general every multi-word name maps to its first token, a space, the
first letter of its last token and a period, and every single-word name
passes through unchanged. -/
theorem anonymizeName_spec :
    anonymizeName (some "John Doe".data) = "John D.".data ∧
    anonymizeName (some "John".data) = "John".data ∧
    anonymizeName (some "".data) = "Anonymous".data ∧
    anonymizeName none = "Anonymous".data ∧
    anonymizeName (some "John Michael Doe".data) = "John D.".data ∧
    (∀ s : List Char, 2 ≤ (pySplit (pyStrip s)).length →
      anonymizeName (some s) =
        (pySplit (pyStrip s)).headD [] ++
          ' ' :: (((pySplit (pyStrip s)).getLastD []).take 1 ++ ['.'])) ∧
    (∀ s : List Char, s ≠ [] → (∀ c ∈ s, ¬ c.isWhitespace) →
      anonymizeName (some s) = s) := by
  refine ⟨by decide, by decide, by decide, rfl, by decide, ?_, ?_⟩
  · intro s h2
    have hstrip : pyStrip s ≠ [] := by
      intro hs
      rw [hs] at h2
      simp [pySplit, splitWsAux] at h2
    have hne : ¬ (s = [] ∨ pyStrip s = []) := by
      rintro (h | h)
      · exact hstrip (by rw [h]; rfl)
      · exact hstrip h
    have hlen1 : ¬ (pySplit (pyStrip s)).length = 1 := by omega
    simp [anonymizeName, hne, hlen1, h2]
  · intro s hne hws
    have hstrip : pyStrip s = s := pyStrip_no_ws s hws
    have hsplit : pySplit s = [s] := pySplit_single s hne hws
    have hguard : ¬ (s = [] ∨ pyStrip s = []) := by
      rintro (h | h)
      · exact hne h
      · rw [hstrip] at h; exact hne h
    simp [anonymizeName, hguard, hstrip, hsplit, hne]

/-- C9 witness: the single-word clause of `anonymizeName_spec` at "Bob". -/
theorem anonymizeName_spec_witness :
    anonymizeName (some "Bob".data) = "Bob".data :=
  anonymizeName_spec.2.2.2.2.2.2 "Bob".data (by decide) (by decide)

/-! ### Claim C10: the leaderboard error fallback -/

/-- C10: when any internal error occurs, `get_leaderboard` returns (rather
than propagates) the fixed fallback: empty leaderboard, pagination
`current_page = 1`, `total_pages = 0`, `total_count = 0`,
`has_next = has_prev = false`, `per_page = limit`, empty filters — whose
leaderboard content and total count coincide with a successful call on a
database with no users at all. -/
theorem getLeaderboard_error_fallback (db : AnalyticsDB) (limit page : Nat)
    (f : LbFilters) :
    getLeaderboard true db limit page f =
      { leaderboard := []
        pagination :=
          { currentPage := 1, totalPages := 0, totalCount := 0
            hasNext := false, hasPrev := false, perPage := limit }
        filters := none } ∧
    (getLeaderboard true db limit page f).leaderboard =
      (getLeaderboard false ⟨[], [], []⟩ limit 1 noFilters).leaderboard ∧
    (getLeaderboard true db limit page f).pagination.totalCount =
      (getLeaderboard false ⟨[], [], []⟩ limit 1 noFilters).pagination.totalCount := by
  refine ⟨rfl, ?_, ?_⟩ <;>
    simp [getLeaderboard, getLeaderboardOk, leaderboardRanking]

/-! ### Claim C1: leaderboard content and ordering -/

theorem map_enumFrom_proj {α β : Type _} (f : Nat × α → β) (g : α → β)
    (h : ∀ p : Nat × α, f p = g p.2) :
    ∀ (l : List α) (n : Nat), (List.enumFrom n l).map f = l.map g := by
  intro l
  induction l with
  | nil => intro n; rfl
  | cons a t ih => intro n; simp only [List.enumFrom, List.map_cons, h, ih]

theorem lbLe_iff_lbOrder (db : AnalyticsDB) (f : LbFilters) (u v : UserRow) :
    lbLe db f u v ↔ lbOrder db f u v := by
  unfold lbLe lbKey lbOrder
  rw [Prod.Lex.le_iff, Prod.Lex.le_iff]
  simp [neg_lt_neg_iff, neg_inj, Nat.cast_lt, Nat.cast_inj]

/-- C1 (amended): for every database state and filter combination, the
leaderboard query ranks exactly the users with at least 3 attempts after
filters, ordered by the mean of per-attempt percentages
(`avg(score/total_questions*100)`) descending, then total test count
descending, then total time ascending, and each result page is the
corresponding contiguous slice of that ranking.  (The hypothesis restricts
to reachable states: every stored attempt has at least one question.) -/
theorem leaderboard_content_and_order (db : AnalyticsDB) (f : LbFilters)
    (limit page : Nat)
    (_hq : ∀ a ∈ db.attempts, 0 < a.totalQuestions) :
    (∀ u : UserRow, u ∈ leaderboardRanking db f ↔
        u ∈ db.users ∧ userInFilter f u = true ∧
          3 ≤ (filteredAttempts db f u).length) ∧
    List.Pairwise (lbOrder db f) (leaderboardRanking db f) ∧
    (getLeaderboardOk db limit page f).leaderboard.map LbEntry.userId =
      (((leaderboardRanking db f).drop ((page - 1) * limit)).take limit).map
        UserRow.id := by
  refine ⟨?_, ?_, ?_⟩
  · intro u
    unfold leaderboardRanking
    rw [(List.perm_insertionSort (lbLe db f) _).mem_iff, List.mem_filter]
    simp [lbEligible, lbTotalTests]
  · exact (List.sorted_insertionSort (lbLe db f) _).imp
      (fun h => (lbLe_iff_lbOrder db f _ _).mp h)
  · simp only [getLeaderboardOk, List.enum, List.map_map]
    exact map_enumFrom_proj _ UserRow.id (fun p => rfl) _ 0

end UEM

namespace UEM

/-- C1 counterexample: on `dbCounterC1` the returned leaderboard lists
user 1 before user 2, yet user 1's pooled average
(`sum(score)/sum(total_questions)*100` = 25/13) is strictly below user 2's
(10), so the result is not ordered by the claimed pooled key. -/
theorem leaderboard_not_pooled_ordered :
    (getLeaderboardOk dbCounterC1 50 1 noFilters).leaderboard.map
        LbEntry.userId = [1, 2] ∧
    specPooledAverage dbCounterC1 noFilters uC1a <
      specPooledAverage dbCounterC1 noFilters uC1b := by
  have hfa : filteredAttempts dbCounterC1 noFilters uC1a =
      [⟨1, 0, 1, 2, 100⟩, ⟨1, 0, 1, 2, 100⟩, ⟨1, 0, 0, 100, 100⟩] := rfl
  have hfb : filteredAttempts dbCounterC1 noFilters uC1b =
      [⟨2, 0, 1, 10, 100⟩, ⟨2, 0, 1, 10, 100⟩, ⟨2, 0, 1, 10, 100⟩] := rfl
  have havg1 : lbAvgScore dbCounterC1 noFilters uC1a = 100 / 3 := by
    rw [lbAvgScore, hfa]
    norm_num
  have havg2 : lbAvgScore dbCounterC1 noFilters uC1b = 10 := by
    rw [lbAvgScore, hfb]
    norm_num
  have h12 : lbLe dbCounterC1 noFilters uC1a uC1b := by
    unfold lbLe lbKey
    rw [Prod.Lex.le_iff]
    left
    show -(lbAvgScore dbCounterC1 noFilters uC1a) <
      -(lbAvgScore dbCounterC1 noFilters uC1b)
    rw [havg1, havg2]
    norm_num
  have hrank : leaderboardRanking dbCounterC1 noFilters = [uC1a, uC1b] := by
    have hfilter : dbCounterC1.users.filter
        (fun u => lbEligible dbCounterC1 noFilters u) = [uC1a, uC1b] := rfl
    unfold leaderboardRanking
    rw [hfilter]
    show List.orderedInsert _ uC1a (List.orderedInsert _ uC1b []) = _
    rw [List.orderedInsert, List.orderedInsert, if_pos h12]
  constructor
  · simp only [getLeaderboardOk, hrank]
    rfl
  · rw [specPooledAverage, specPooledAverage, hfa, hfb]
    norm_num

/-- C1 witness: the page-slice clause of `leaderboard_content_and_order`
at the concrete database `dbCounterC1`. -/
theorem leaderboard_content_and_order_witness :
    (getLeaderboardOk dbCounterC1 50 1 noFilters).leaderboard.map
        LbEntry.userId =
      (((leaderboardRanking dbCounterC1 noFilters).drop ((1 - 1) * 50)).take
          50).map UserRow.id :=
  (leaderboard_content_and_order dbCounterC1 noFilters 50 1
    (by decide)).2.2

end UEM

namespace UEM

/-! ### Claim C3: submission scoring normalization -/

/-- C3: for every question the submitted answer and the stored label are
trimmed and uppercased before comparison; the returned score equals the
number of questions whose normalized non-empty submitted answer equals the
normalized correct answer; a question whose submission is empty or missing
is counted incorrect even when the stored correct-answer field is also
empty. -/
theorem submit_scoring_spec (questions : List QuestionRow)
    (answers : SubmittedAnswers) :
    scoreTest questions answers =
      questions.countP (fun q =>
        submittedNorm answers q != [] &&
          submittedNorm answers q == correctNorm q) ∧
    (∀ q ∈ questions,
      gradeQuestion answers q =
        (submittedNorm answers q == correctNorm q &&
          submittedNorm answers q != [])) ∧
    (∀ q ∈ questions, submittedNorm answers q = [] →
      gradeQuestion answers q = false) := by
  refine ⟨?_, fun q _ => rfl, ?_⟩
  · unfold scoreTest
    refine List.countP_congr fun q _ => ?_
    unfold gradeQuestion
    rw [Bool.and_comm]
  · intro q _ h
    simp [gradeQuestion, h]

/-- C3 witness: an empty submission against an empty stored label is
graded incorrect. -/
theorem submit_scoring_spec_witness :
    gradeQuestion [] ⟨1, "Quantitative Aptitude".data, some "".data⟩ =
      false :=
  (submit_scoring_spec [⟨1, "Quantitative Aptitude".data, some "".data⟩]
      []).2.2
    ⟨1, "Quantitative Aptitude".data, some "".data⟩ (by simp) rfl

/-! ### Claim C4: progress-metric incremental update -/

/-- C4: with no prior row, a 4/5 section result creates
`accuracy_rate = 80`, `total_attempts = 1`; a following 3/5 result in the
same subject updates the row to `accuracy_rate = 70`,
`total_attempts = 2`, via the reconstruct-and-reaverage rule of
`update_metrics`. -/
theorem progress_metrics_scenario :
    recordSectionResult none 4 5 =
      { accuracy_rate := 80, total_attempts := 1 } ∧
    recordSectionResult (some (recordSectionResult none 4 5)) 3 5 =
      { accuracy_rate := 70, total_attempts := 2 } := by
  constructor
  · simp only [recordSectionResult]
    norm_num
  · simp only [recordSectionResult, updateMetrics]
    norm_num

/-! ### Claim C8: percentage bounds -/

/-- C8: for an attempt whose score lies between 0 and its question count
(as every attempt created by `submit_test` does — third conjunct),
`calculate_percentage` lies in [0, 100] when `total_questions > 0`, and is
exactly 0 when `total_questions = 0`; the zero case is an explicit branch,
not a division. -/
theorem percentage_bounds (a : TestAttemptRow) (h0 : 0 ≤ a.score)
    (h1 : a.score ≤ (a.totalQuestions : ℚ)) :
    (0 < a.totalQuestions →
      0 ≤ calculatePercentage a ∧ calculatePercentage a ≤ 100) ∧
    (a.totalQuestions = 0 → calculatePercentage a = 0) ∧
    ∀ (questions : List QuestionRow) (answers : SubmittedAnswers),
      scoreTest questions answers ≤ questions.length := by
  refine ⟨?_, ?_, ?_⟩
  · intro ht
    have htq : (0 : ℚ) < (a.totalQuestions : ℚ) := by exact_mod_cast ht
    rw [calculatePercentage, if_pos ht]
    constructor
    · positivity
    · have hdiv : a.score / (a.totalQuestions : ℚ) ≤ 1 :=
        (div_le_one htq).mpr h1
      calc a.score / (a.totalQuestions : ℚ) * 100 ≤ 1 * 100 :=
            mul_le_mul_of_nonneg_right hdiv (by norm_num)
        _ = 100 := one_mul 100
  · intro ht
    rw [calculatePercentage, if_neg (by omega)]
  · intro questions answers
    exact List.countP_le_length _

/-- C8 witness: bounds at the concrete attempt 3/4. -/
theorem percentage_bounds_witness :
    0 ≤ calculatePercentage ⟨1, 1, 3, 4, 60⟩ ∧
      calculatePercentage ⟨1, 1, 3, 4, 60⟩ ≤ 100 :=
  (percentage_bounds ⟨1, 1, 3, 4, 60⟩ (by norm_num) (by norm_num)).1
    (by norm_num)

end UEM

namespace UEM

/-! ### Claim C7: the Research Client retry loop -/

theorem retryGo_all_fail {α : Type} (script : Nat → CallResult α)
    (maxR delay : Nat)
    (hfail : ∀ j, j < maxR → (script j).isFail = true) :
    ∀ (remaining attempt : Nat) (last : Option (List Char)) (acc : List Nat),
      attempt + remaining = maxR →
      retryGo script maxR delay remaining attempt last acc =
        ⟨.error (maxR,
            if remaining = 0 then last else excMsg (script (maxR - 1))),
          acc.reverse ++
            (List.range' attempt (remaining - 1)).map
              (fun j => delay * backoffFactor (script j) ^ j)⟩ := by
  intro remaining
  induction remaining with
  | zero =>
    intro attempt last acc h
    simp [retryGo]
  | succ r ih =>
    intro attempt last acc h
    have hj : (script attempt).isFail = true := hfail attempt (by omega)
    rcases hs : script attempt with v | e | e
    · rw [hs] at hj
      simp [CallResult.isFail] at hj
    · rcases Nat.eq_zero_or_pos r with hr | hr
      · subst hr
        have hlt : ¬ attempt < maxR - 1 := by omega
        have hatt : maxR - 1 = attempt := by omega
        simp [retryGo, hs, if_neg hlt, hatt, excMsg]
      · have hlt : attempt < maxR - 1 := by omega
        simp only [retryGo, hs, if_pos hlt]
        rw [ih (attempt + 1) (some e) (delay * 3 ^ attempt :: acc)
          (by omega)]
        have hr0 : ¬ r = 0 := by omega
        simp only [if_neg hr0]
        have hrange : List.range' attempt (r + 1 - 1) =
            attempt :: List.range' (attempt + 1) (r - 1) := by
          have : r + 1 - 1 = (r - 1) + 1 := by omega
          rw [this, List.range'_succ]
        rw [hrange]
        simp [hs, backoffFactor, List.append_assoc]
    · rcases Nat.eq_zero_or_pos r with hr | hr
      · subst hr
        have hlt : ¬ attempt < maxR - 1 := by omega
        have hatt : maxR - 1 = attempt := by omega
        simp [retryGo, hs, if_neg hlt, hatt, excMsg]
      · have hlt : attempt < maxR - 1 := by omega
        simp only [retryGo, hs, if_pos hlt]
        rw [ih (attempt + 1) (some e) (delay * 2 ^ attempt :: acc)
          (by omega)]
        have hr0 : ¬ r = 0 := by omega
        simp only [if_neg hr0]
        have hrange : List.range' attempt (r + 1 - 1) =
            attempt :: List.range' (attempt + 1) (r - 1) := by
          have : r + 1 - 1 = (r - 1) + 1 := by omega
          rw [this, List.range'_succ]
        rw [hrange]
        simp [hs, backoffFactor, List.append_assoc]

theorem retryGo_first_ok {α : Type} (script : Nat → CallResult α)
    (maxR delay : Nat) (k : Nat) (v : α)
    (hfail : ∀ j, j < k → (script j).isFail = true)
    (hok : script k = .ok v) (hk : k < maxR) :
    ∀ (remaining attempt : Nat) (last : Option (List Char)) (acc : List Nat),
      attempt + remaining = maxR → attempt ≤ k →
      retryGo script maxR delay remaining attempt last acc =
        ⟨.ok v,
          acc.reverse ++
            (List.range' attempt (k - attempt)).map
              (fun j => delay * backoffFactor (script j) ^ j)⟩ := by
  intro remaining
  induction remaining with
  | zero =>
    intro attempt last acc h hak
    omega
  | succ r ih =>
    intro attempt last acc h hak
    rcases Nat.lt_or_ge attempt k with hlt | hge
    · have hj : (script attempt).isFail = true := hfail attempt hlt
      have hbound : attempt < maxR - 1 := by omega
      have hrange : List.range' attempt (k - attempt) =
          attempt :: List.range' (attempt + 1) (k - (attempt + 1)) := by
        have : k - attempt = (k - (attempt + 1)) + 1 := by omega
        rw [this, List.range'_succ]
      rcases hs : script attempt with w | e | e
      · rw [hs] at hj
        simp [CallResult.isFail] at hj
      · simp only [retryGo, hs, if_pos hbound]
        rw [ih (attempt + 1) (some e) (delay * 3 ^ attempt :: acc)
          (by omega) (by omega)]
        rw [hrange]
        simp [hs, backoffFactor, List.append_assoc]
      · simp only [retryGo, hs, if_pos hbound]
        rw [ih (attempt + 1) (some e) (delay * 2 ^ attempt :: acc)
          (by omega) (by omega)]
        rw [hrange]
        simp [hs, backoffFactor, List.append_assoc]
    · have hak' : attempt = k := by omega
      subst hak'
      simp [retryGo, hok, Nat.sub_self]

/-- C7 (amended): the Research Client retry loop retries every exception —
network-related or not — with the delay multiplied by 3 per attempt for
timeout errors and by 2 for all other exceptions; when all configured
attempts (default 3) fail it raises a `GoogleSearchAPIError` wrapping the
last underlying exception, and when some attempt succeeds after failures
the backoff delays of the failed attempts follow the same per-kind
factors. -/
theorem research_retry_policy {α : Type} (script : Nat → CallResult α)
    (maxRetries retryDelay : Nat)
    (hfail : ∀ j, j < maxRetries → (script j).isFail = true) :
    (0 < maxRetries →
      retryApiCall script maxRetries retryDelay =
        ⟨.error (maxRetries, excMsg (script (maxRetries - 1))),
          (List.range (maxRetries - 1)).map
            (fun j => retryDelay * backoffFactor (script j) ^ j)⟩) ∧
    (∀ (k : Nat) (v : α) (script' : Nat → CallResult α),
      (∀ j, j < k → (script' j).isFail = true) → script' k = .ok v →
      k < maxRetries →
      retryApiCall script' maxRetries retryDelay =
        ⟨.ok v,
          (List.range k).map
            (fun j => retryDelay * backoffFactor (script' j) ^ j)⟩) := by
  constructor
  · intro hpos
    have := retryGo_all_fail script maxRetries retryDelay hfail maxRetries 0
      none [] (by omega)
    rw [retryApiCall, this]
    have hne : ¬ maxRetries = 0 := by omega
    simp [if_neg hne, List.range_eq_range']
  · intro k v script' hfail' hok hk
    have := retryGo_first_ok script' maxRetries retryDelay k v hfail' hok hk
      maxRetries 0 none [] (by omega) (by omega)
    rw [retryApiCall, this]
    simp [List.range_eq_range']

/-- C7 counterexample: a non-network error (a `ValueError`, handled by the
source's blanket `except Exception`) on the first attempt IS retried —
after a factor-2 backoff sleep the second attempt runs and its value is
returned. -/
theorem research_retry_retries_non_network :
    retryApiCall scriptC7 3 2 = ⟨.ok 42, [2]⟩ := rfl

/-- C7 witness: the exhaustion clause of `research_retry_policy` on the
all-failing script (timeout then generic errors): delays 2·3⁰ and 2·2¹,
error wrapping the last exception. -/
theorem research_retry_policy_witness :
    retryApiCall scriptC7b 3 2 =
      ⟨.error (3, excMsg (scriptC7b (3 - 1))),
        (List.range (3 - 1)).map
          (fun j => 2 * backoffFactor (scriptC7b j) ^ j)⟩ :=
  (research_retry_policy scriptC7b 3 2 (by decide)).1 (by decide)

end UEM

namespace UEM

/-! ### Claim C6: synthesis validation and what the retry loop covers -/

set_option maxHeartbeats 1600000 in
theorem validateQuestion_ok {i : Nat} {q : QJson}
    (h : validateQuestion i q = .ok ()) :
    q.correct_answer.isSome = true ∧ (q.options.getD []).length = 4 ∧
      q.difficulty.getD [] ∈ ["easy".data, "medium".data, "hard".data] := by
  unfold validateQuestion at h
  split_ifs at h with h1 h2 h3 h4 h5 h6 h7 h8 h9 h10
  refine ⟨?_, ?_, ?_⟩
  · cases hq : q.correct_answer with
    | none => rw [hq] at h4; exact absurd rfl h4
    | some v => rfl
  · omega
  · simpa using h10

theorem validateQuestions_ok :
    ∀ (i : Nat) (qs : List QJson), validateQuestions i qs = .ok () →
      ∀ q ∈ qs, ∃ j, validateQuestion j q = .ok () := by
  intro i qs
  induction qs generalizing i with
  | nil =>
    intro _ q hq
    simp at hq
  | cons a t ih =>
    intro h q hq
    simp only [validateQuestions] at h
    cases hv : validateQuestion i a with
    | error e =>
      rw [hv] at h
      exact absurd h (by simp)
    | ok u =>
      rw [hv] at h
      rcases List.mem_cons.mp hq with rfl | hmem
      · exact ⟨i, by cases u; exact hv⟩
      · exact ih (i + 1) h q hmem

theorem validateSections_ok :
    ∀ (ss : List SJson), validateSections ss = .ok () →
      ∀ s ∈ ss, validateSection s = .ok () := by
  intro ss
  induction ss with
  | nil =>
    intro _ s hs
    simp at hs
  | cons a t ih =>
    intro h s hs
    simp only [validateSections] at h
    cases hv : validateSection a with
    | error e =>
      rw [hv] at h
      exact absurd h (by simp)
    | ok u =>
      rw [hv] at h
      rcases List.mem_cons.mp hs with rfl | hmem
      · cases u; exact hv
      · exact ih h s hmem

theorem validateSection_ok {s : SJson} (h : validateSection s = .ok ()) :
    validateQuestions 0 (s.questions.getD []) = .ok () := by
  unfold validateSection at h
  split_ifs at h
  exact h

theorem validateQuestionJson_ok {t : TJson}
    (h : validateQuestionJson t = .ok ()) :
    validateSections (t.sections.getD []) = .ok () := by
  unfold validateQuestionJson at h
  split_ifs at h
  exact h

set_option maxHeartbeats 1600000 in
/-- C6 (amended): the validator accepts a payload only when every question
has a `correct_answer`, exactly 4 options, and a difficulty in
{easy, medium, hard} — so a payload violating any of these raises a
`QuestionValidationError` whose message names the offending 1-based
question number.  Only the HTTP request sits inside
`_retry_api_call`: a request failure on attempt 0 is retried (with the
factor-2 backoff) and a later good response is used, whereas a validation
failure is never retried — it surfaces at once, wrapped in the
generation-failure error, after exactly one request. -/
theorem synthesis_validation_and_retry :
    (∀ t : TJson, validateQuestionJson t = .ok () →
      ∀ s ∈ t.sections.getD [], ∀ q ∈ s.questions.getD [],
        q.correct_answer.isSome = true ∧ (q.options.getD []).length = 4 ∧
          q.difficulty.getD [] ∈
            ["easy".data, "medium".data, "hard".data]) ∧
    (∀ (i : Nat) (q : QJson) (e : VErr), validateQuestion i q = .error e →
      e.questionIdx = some (i + 1)) ∧
    (∀ (script : Nat → ReqOutcome) (maxR delay : Nat) (p : TJson)
        (ve : VErr), 0 < maxR → script 0 = .ok p →
      validateQuestionJson p = .error ve →
      generateQuestions script maxR delay =
        ⟨.error (.validationFailed ve), 1, []⟩) ∧
    (∀ (script : Nat → ReqOutcome) (maxR delay : Nat) (e : List Char)
        (p : TJson), 1 < maxR → script 0 = .fail e → script 1 = .ok p →
      validateQuestionJson p = .ok () →
      generateQuestions script maxR delay =
        ⟨.ok p, 2, [delay * 2 ^ 0]⟩) := by
  refine ⟨?_, ?_, ?_, ?_⟩
  · intro t ht s hs q hq
    have h1 := validateSections_ok _ (validateQuestionJson_ok ht) s hs
    have h2 := validateQuestions_ok 0 _ (validateSection_ok h1) q hq
    obtain ⟨j, hj⟩ := h2
    exact validateQuestion_ok hj
  · intro i q e h
    unfold validateQuestion at h
    split_ifs at h
    all_goals (injection h with h2; subst h2; rfl)
  · intro script maxR delay p ve hpos hs hval
    obtain ⟨r, rfl⟩ : ∃ r, maxR = r + 1 := ⟨maxR - 1, by omega⟩
    simp [generateQuestions, geminiRetry, hs, hval]
  · intro script maxR delay e p hpos hs0 hs1 hval
    obtain ⟨r, rfl⟩ : ∃ r, maxR = r + 2 := ⟨maxR - 2, by omega⟩
    have hlt : 0 < r + 2 - 1 := by omega
    simp [generateQuestions, geminiRetry, hs0, hs1, hval, if_pos hlt]

/-- C6 counterexample: a response whose first question misses
`correct_answer` is rejected with the error naming question 1 — but it is
NOT retried: exactly one request is made and the generation-failure error
surfaces, even though the very next attempt would have returned a payload
that validates. -/
theorem synthesis_validation_failure_not_retried :
    generateQuestions scriptC6 3 2 =
      ⟨.error (.validationFailed
          (.missingQuestionField 1 "correct_answer".data)), 1, []⟩ ∧
    validateQuestionJson tGoodC6 = .ok () ∧
    scriptC6 1 = .ok tGoodC6 :=
  ⟨rfl, rfl, rfl⟩

/-- C6 witness: the no-retry clause of `synthesis_validation_and_retry` at
the concrete script `scriptC6`. -/
theorem synthesis_validation_and_retry_witness :
    generateQuestions scriptC6 3 2 =
      ⟨.error (.validationFailed
          (.missingQuestionField 1 "correct_answer".data)), 1, []⟩ :=
  synthesis_validation_and_retry.2.2.1 scriptC6 3 2 tBadC6
    (.missingQuestionField 1 "correct_answer".data) (by omega) rfl rfl

end UEM

namespace UEM

/-! ### Claim C5: chunked generation dispatch and section merging -/

theorem mem_names_addSection (s : GenSection) (x : List Char) :
    ∀ acc : List GenSection,
      x ∈ (addSection acc s).map GenSection.section_name ↔
        x ∈ acc.map GenSection.section_name ∨ x = s.section_name := by
  intro acc
  induction acc with
  | nil => simp [addSection]
  | cons t ts ih =>
    by_cases hname : t.section_name = s.section_name
    · simp only [addSection, if_pos hname, List.map_cons, List.mem_cons]
      constructor
      · exact fun h => Or.inl h
      · rintro (h | h)
        · exact h
        · exact Or.inl (h.trans hname.symm)
    · simp only [addSection, if_neg hname, List.map_cons, List.mem_cons, ih]
      exact or_assoc.symm

theorem nodup_names_addSection (s : GenSection) :
    ∀ acc : List GenSection,
      (acc.map GenSection.section_name).Nodup →
      ((addSection acc s).map GenSection.section_name).Nodup := by
  intro acc
  induction acc with
  | nil =>
    intro _
    simp [addSection]
  | cons t ts ih =>
    intro hnd
    simp only [List.map_cons, List.nodup_cons] at hnd
    by_cases hname : t.section_name = s.section_name
    · simp only [addSection, if_pos hname, List.map_cons, List.nodup_cons]
      exact hnd
    · simp only [addSection, if_neg hname, List.map_cons, List.nodup_cons]
      refine ⟨?_, ih hnd.2⟩
      rw [mem_names_addSection]
      rintro (h | h)
      · exact hnd.1 h
      · exact hname h

theorem nodup_names_foldl_addSection (p : GenPayload) :
    ∀ acc : List GenSection,
      (acc.map GenSection.section_name).Nodup →
      ((p.foldl addSection acc).map GenSection.section_name).Nodup := by
  induction p with
  | nil =>
    intro acc h
    simpa using h
  | cons s rest ih =>
    intro acc h
    exact ih (addSection acc s) (nodup_names_addSection s acc h)

theorem nodup_names_mergeSections (chunks : List GenPayload) :
    ((mergeSections chunks).map GenSection.section_name).Nodup := by
  unfold mergeSections
  suffices h : ∀ acc : List GenSection,
      (acc.map GenSection.section_name).Nodup →
      ((chunks.foldl (fun acc p => p.foldl addSection acc) acc).map
          GenSection.section_name).Nodup from h [] (by simp)
  induction chunks with
  | nil =>
    intro acc h
    simpa using h
  | cons p rest ih =>
    intro acc h
    exact ih (p.foldl addSection acc) (nodup_names_foldl_addSection p acc h)

/-- C5 (modelled from the spec — `generate_questions_chunked` itself is
absent from the sources): for every requested count above 15 the
orchestrator dispatches to the chunked variant with a sub-count of 8; the
chunked variant issues ⌈n/8⌉ ≥ 2 synthesis requests of 8 questions each
and merges the returned section lists with section names deduplicated
rather than repeated. -/
theorem chunked_generation_spec (n : Nat) (hn : 15 < n)
    (single : GenPayload) (oracle : Nat → GenPayload) :
    synthesisStep single oracle n = generateQuestionsChunked oracle n 8 ∧
    (generateQuestionsChunked oracle n 8).2 =
      List.replicate ((n + 8 - 1) / 8) 8 ∧
    2 ≤ (n + 8 - 1) / 8 ∧
    ((generateQuestionsChunked oracle n 8).1.map
        GenSection.section_name).Nodup := by
  refine ⟨?_, ?_, ?_, ?_⟩
  · simp [synthesisStep, hn]
  · simp [generateQuestionsChunked, List.map_const']
  · omega
  · exact nodup_names_mergeSections _

/-- C5 witness: the request-sizes clause of `chunked_generation_spec` at
n = 20 (three requests of 8 questions each). -/
theorem chunked_generation_spec_witness :
    (generateQuestionsChunked (fun _ => ([] : GenPayload)) 20 8).2 =
      List.replicate ((20 + 8 - 1) / 8) 8 :=
  (chunked_generation_spec 20 (by norm_num) [] (fun _ => [])).2.1

end UEM

namespace UEM

/-! ### Claim C2: 24-hour generation cache -/

theorem isPrefixOf_self : ∀ l : List Char, l.isPrefixOf l = true := by
  intro l
  induction l with
  | nil => rfl
  | cons a t ih => simp [List.isPrefixOf, ih]

theorem containsCI_self (c : List Char) : containsCI c c = true := by
  unfold containsCI
  cases h : pyLower c with
  | nil => rfl
  | cons a t =>
    rw [containsSub]
    simp [isPrefixOf_self]

theorem savedQuestions_length (p : GenPayload) (tid : Nat) :
    (p.flatMap fun s => s.questions.map fun q =>
        (⟨tid, s.section_name, q.question_text⟩ : QuestionRecord)).length =
      payloadQuestionCount p := by
  induction p with
  | nil => rfl
  | cons s rest ih =>
    simp [payloadQuestionCount, List.flatMap_cons] at ih ⊢
    omega

theorem savedQuestions_testId (p : GenPayload) (tid : Nat) :
    ∀ q ∈ (p.flatMap fun s => s.questions.map fun q =>
        (⟨tid, s.section_name, q.question_text⟩ : QuestionRecord)),
      q.testId = tid := by
  intro q hq
  rw [List.mem_flatMap] at hq
  obtain ⟨s, _, hq2⟩ := hq
  rw [List.mem_map] at hq2
  obtain ⟨q0, _, rfl⟩ := hq2
  rfl

/-- C2 (amended): for every company, year and database state in which no
test matching (company as case-insensitive substring, year, cache window)
pre-exists, calling `generate_test` twice within the 24-hour window
without `force_regenerate`, where the first call persists at least one
question, makes the second call return the first call's `test_id` with
`from_cache = true`, performing no research call and no synthesis request
and leaving the database unchanged. -/
theorem generation_cache_idempotent (db : GenDB) (t1 t2 : Int)
    (company : List Char) (n year : Nat)
    (single1 single2 : GenPayload) (chunk1 chunk2 : Nat → GenPayload)
    (hvalid : validGenerationRequest company n = true)
    (hnomatch : ∀ t ∈ db.tests,
      ¬(containsCI company t.company = true ∧ t.year = year ∧
        t1 - cacheWindowSeconds ≤ t.createdAt))
    (horder : t1 ≤ t2) (hwin : t2 ≤ t1 + cacheWindowSeconds)
    (hq : 0 < payloadQuestionCount (synthesisStep single1 chunk1 n).1) :
    generateTestAsync db t1 company n year false single1 chunk1 =
      .ok (⟨db.nextTestId, false, 1, (synthesisStep single1 chunk1 n).2⟩,
        (saveTestToDatabase db (synthesisStep single1 chunk1 n).1 company
          year t1).2) ∧
    generateTestAsync
        (saveTestToDatabase db (synthesisStep single1 chunk1 n).1 company
          year t1).2
        t2 company n year false single2 chunk2 =
      .ok (⟨db.nextTestId, true, 0, []⟩,
        (saveTestToDatabase db (synthesisStep single1 chunk1 n).1 company
          year t1).2) := by
  have hv' : (!validGenerationRequest company n) = false := by
    simp [hvalid]
  have hchk1 : checkExistingTest db t1 company year = none := by
    unfold checkExistingTest
    have hfilter : db.tests.filter (fun t =>
        containsCI company t.company && t.year == year &&
          decide (t1 - cacheWindowSeconds ≤ t.createdAt)) = [] := by
      refine List.filter_eq_nil_iff.mpr fun t ht => ?_
      intro hcontra
      simp only [Bool.and_eq_true, beq_iff_eq, decide_eq_true_eq] at hcontra
      exact hnomatch t ht ⟨hcontra.1.1, hcontra.1.2, hcontra.2⟩
    rw [hfilter]
    rfl
  constructor
  · simp only [generateTestAsync, hv', Bool.false_eq_true, if_false,
      Bool.not_eq_true, hchk1]
    rfl
  · set p := (synthesisStep single1 chunk1 n).1 with hp
    set db1 := (saveTestToDatabase db p company year t1).2 with hdb1
    have htests : db1.tests =
        db.tests ++ [⟨db.nextTestId, company, year, t1⟩] := rfl
    have hqs : db1.questions = db.questions ++
        (p.flatMap fun s => s.questions.map fun q =>
          (⟨db.nextTestId, s.section_name, q.question_text⟩ :
            QuestionRecord)) := rfl
    have hchk2 : checkExistingTest db1 t2 company year =
        some ⟨db.nextTestId, company, year, t1⟩ := by
      unfold checkExistingTest
      have hfilter : db1.tests.filter (fun t =>
          containsCI company t.company && t.year == year &&
            decide (t2 - cacheWindowSeconds ≤ t.createdAt)) =
          [⟨db.nextTestId, company, year, t1⟩] := by
        rw [htests, List.filter_append]
        have h1 : db.tests.filter (fun t =>
            containsCI company t.company && t.year == year &&
              decide (t2 - cacheWindowSeconds ≤ t.createdAt)) = [] := by
          refine List.filter_eq_nil_iff.mpr fun t ht => ?_
          intro hcontra
          simp only [Bool.and_eq_true, beq_iff_eq,
            decide_eq_true_eq] at hcontra
          obtain ⟨⟨hc1, hc2⟩, hc3⟩ := hcontra
          exact hnomatch t ht ⟨hc1, hc2, by omega⟩
        have h2 : (List.filter (fun t : TestRow =>
            containsCI company t.company && t.year == year &&
              decide (t2 - cacheWindowSeconds ≤ t.createdAt))
            [⟨db.nextTestId, company, year, t1⟩]) =
            [⟨db.nextTestId, company, year, t1⟩] := by
          refine List.filter_eq_self.mpr fun t ht => ?_
          rw [List.mem_singleton] at ht
          subst ht
          simp only [containsCI_self, Bool.true_and, beq_self_eq_true,
            Bool.and_eq_true, decide_eq_true_eq]
          omega
        rw [h1, List.nil_append, h2]
      rw [hfilter]
      simp only [List.head?]
      have hcount : 0 < (db1.questions.filter fun q =>
          q.testId == db.nextTestId).length := by
        rw [hqs, List.filter_append, List.length_append]
        have hall : ((p.flatMap fun s => s.questions.map fun q =>
            (⟨db.nextTestId, s.section_name, q.question_text⟩ :
              QuestionRecord)).filter fun q =>
                q.testId == db.nextTestId) =
            (p.flatMap fun s => s.questions.map fun q =>
              (⟨db.nextTestId, s.section_name, q.question_text⟩ :
                QuestionRecord)) := by
          refine List.filter_eq_self.mpr fun q hqmem => ?_
          rw [savedQuestions_testId p db.nextTestId q hqmem]
          simp
        rw [hall, savedQuestions_length]
        omega
      simp only [if_pos hcount]
    simp only [generateTestAsync, hv', Bool.false_eq_true, if_false,
      Bool.not_eq_true, hchk2]

end UEM

namespace UEM

/-- C2 counterexample: `dbC2` holds a matching cached test (id 1, "TCS",
2025, in-window) with zero questions.  The first call finds it via
`.first()`, sees no questions, regenerates and persists test 2 with one
question.  The second call, one hour later and well inside the window,
again takes test 1 from `.first()`, again sees no questions — and
regenerates once more: it performs research and synthesis and returns a
fresh test_id 3 with `from_cache = false`, despite the first call having
persisted a question. -/
theorem generation_cache_counterexample :
    generateTestAsync dbC2 0 "TCS".data 10 2025 false payloadC2
        (fun _ => []) = .ok (⟨2, false, 1, [10]⟩, dbC2saved) ∧
    (0 : Nat) <
      (dbC2saved.questions.filter fun q => q.testId == 2).length ∧
    generateTestAsync dbC2saved 3600 "TCS".data 10 2025 false payloadC2
        (fun _ => []) = .ok (⟨3, false, 1, [10]⟩, dbC2saved2) :=
  ⟨rfl, by decide, rfl⟩

/-- C2 witness: `generation_cache_idempotent` on an empty database — the
second call returns the first call's test id from cache with no external
calls. -/
theorem generation_cache_idempotent_witness :
    generateTestAsync
        (saveTestToDatabase (⟨[], [], 1⟩ : GenDB)
          (synthesisStep payloadC2 (fun _ => []) 10).1 "TCS".data 2025 0).2
        3600 "TCS".data 10 2025 false payloadC2 (fun _ => []) =
      .ok (⟨(⟨[], [], 1⟩ : GenDB).nextTestId, true, 0, []⟩,
        (saveTestToDatabase (⟨[], [], 1⟩ : GenDB)
          (synthesisStep payloadC2 (fun _ => []) 10).1 "TCS".data 2025
          0).2) :=
  (generation_cache_idempotent (⟨[], [], 1⟩ : GenDB) 0 3600 "TCS".data 10
    2025 payloadC2 payloadC2 (fun _ => []) (fun _ => []) (by decide)
    (by simp) (by decide) (by decide) (by decide)).2

end UEM
